import Mathlib

/-!
Verification of the notification-listener event-ingestion core
(adapter/pkg/messagelisteners/notificationListener.go).

The Go code is embedded shallowly: the decoded JSON event shapes become
structures, the package-level catalog slices and timestamp maps become a
CatalogState record of lists, and each handler becomes a pure state
transformer.  Go maps (map[string]int64) are modelled as association
lists with unique keys; a map write (m[k] = v) updates the entry for k in
place or appends a fresh entry.  Machine int64 timestamps are modelled as
Int (the claims involve no overflow).  strings.EqualFold is modelled as
ASCII case folding (all strings involved are ASCII) and strings.Contains
as byte-substring containment.
-/

/-- ASCII case folding of one character, the behaviour of Go
strings.EqualFold on ASCII input. -/
def foldChar (c : Char) : Char :=
  if 'A' ≤ c ∧ c ≤ 'Z' then Char.ofNat (c.toNat + 32) else c

/-- Model of Go strings.EqualFold restricted to ASCII strings. -/
def strEqualFold (s t : String) : Bool :=
  s.toList.map foldChar == t.toList.map foldChar

/-- Whether pat is a prefix of s (character lists). -/
def listStartsWith : List Char → List Char → Bool
  | [], _ => true
  | _ :: _, [] => false
  | p :: ps, c :: cs => p == c && listStartsWith ps cs

/-- Whether pat occurs contiguously inside s (character lists). -/
def listContainsSub (pat : List Char) : List Char → Bool
  | [] => listStartsWith pat []
  | c :: rest => listStartsWith pat (c :: rest) || listContainsSub pat rest

/-- Model of Go strings.Contains (substring test); on ASCII input the
byte-level and character-level tests agree. -/
def strContains (s sub : String) : Bool :=
  listContainsSub sub.toList s.toList

/- Constants of the listener (notificationListener.go lines 32-41). -/

def apiEventType : String := "API"
def applicationEventType : String := "APPLICATION"
def subscriptionEventType : String := "SUBSCRIPTIONS"
def scopeEvenType : String := "SCOPE"
def removeAPIFromGateway : String := "REMOVE_API_FROM_GATEWAY"
def deployAPIToGateway : String := "DEPLOY_API_IN_GATEWAY"
def applicationRegistration : String := "APPLICATION_REGISTRATION_CREATE"
def removeApplicationKeyMapping : String := "REMOVE_APPLICATION_KEYMAPPING"

/- Catalog record shapes (package resource_types), with the fields this
listener reads or writes. -/

/-- API catalog record (resourcetypes.API as built at lines 116-119). -/
structure API where
  APIID : String
  Provider : String
  Name : String
  Version : String
  Context : String
  APIType : String
  IsDefaultVersion : Bool
  TenantID : Int
  TenantDomain : String
  TimeStamp : Int
deriving DecidableEq, Repr

/-- Application key-mapping catalog record (lines 131-134). -/
structure ApplicationKeyMapping where
  ApplicationID : String
  ConsumerKey : String
  KeyType : String
  KeyManager : String
  TenantID : Int
  TenantDomain : String
  TimeStamp : Int
deriving DecidableEq, Repr

/-- Application catalog record (lines 140-142). -/
structure Application where
  UUID : String
  ID : String
  Name : String
  SubName : String
  Policy : String
  TokenType : String
  GroupIds : String
  Attributes : Option String
  TenantID : Int
  TenantDomain : String
  TimeStamp : Int
deriving DecidableEq, Repr

/-- Subscription catalog record (lines 153-155). -/
structure Subscription where
  SubscriptionID : String
  PolicyID : String
  APIID : String
  AppID : String
  SubscriptionState : String
  TenantID : Int
  TenantDomain : String
  TimeStamp : Int
deriving DecidableEq, Repr

/-- Scope catalog record (line 165). -/
structure Scope where
  Name : String
  DisplayName : String
  ApplicationName : String
deriving DecidableEq, Repr

/-- Application-policy catalog record (lines 188-189). -/
structure ApplicationPolicy where
  ID : String
  TenantID : Int
  Name : String
  QuotaType : String
deriving DecidableEq, Repr

/-- Subscription-policy catalog record (lines 196-201). -/
structure SubscriptionPolicy where
  ID : String
  TenantID : Int
  Name : String
  QuotaType : String
  GraphQLMaxComplexity : Int
  GraphQLMaxDepth : Int
  RateLimitCount : Int
  RateLimitTimeUnit : String
  StopOnQuotaReach : Bool
  TenantDomain : String
  TimeStamp : Int
deriving DecidableEq, Repr

/- Decoded event shapes (package messagelisteners event types), with the
fields this listener reads. -/

/-- Inner event sub-record of an API event (apiEvent.Event: Type,
TimeStamp, TenantDomain).  The Go field named Type is rendered Type_
because Type is a Lean keyword. -/
structure APIEventBase where
  Type_ : String
  TimeStamp : Int
  TenantDomain : String
deriving DecidableEq, Repr

/-- Decoded API event shape (handleAPIEvents). -/
structure APIEvent where
  APIID : String
  APIProvider : String
  APIName : String
  APIVersion : String
  APIContext : String
  APIType : String
  Event : APIEventBase
deriving DecidableEq, Repr

/-- Decoded application-registration event shape (lines 128-134). -/
structure ApplicationRegistrationEvent where
  ApplicationID : String
  ConsumerKey : String
  KeyType : String
  KeyManager : String
  TenantDomain : String
  TimeStamp : Int
deriving DecidableEq, Repr

/-- Decoded application event shape (lines 138-142). -/
structure ApplicationEvent where
  UUID : String
  ApplicationID : String
  ApplicationName : String
  Subscriber : String
  ApplicationPolicy : String
  TokenType : String
  GroupID : String
  TenantDomain : String
  TimeStamp : Int
deriving DecidableEq, Repr

/-- Decoded subscription event shape (lines 151-155). -/
structure SubscriptionEvent where
  SubscriptionID : String
  PolicyID : String
  APIID : String
  ApplicationID : String
  SubscriptionState : String
  TenantID : Int
  TenantDomain : String
  TimeStamp : Int
deriving DecidableEq, Repr

/-- Decoded scope event shape (lines 163-165). -/
structure ScopeEvent where
  Name : String
  DisplayName : String
  ApplicationName : String
deriving DecidableEq, Repr

/-- Decoded generic policy envelope (lines 172-173, 184-189). -/
structure PolicyInfo where
  PolicyID : String
  PolicyName : String
  QuotaType : String
  PolicyType : String
deriving DecidableEq, Repr

/-- Decoded subscription-policy event shape (lines 193-201). -/
structure SubscriptionPolicyEvent where
  PolicyID : String
  PolicyName : String
  QuotaType : String
  GraphQLMaxComplexity : Int
  GraphQLMaxDepth : Int
  RateLimitCount : Int
  RateLimitTimeUnit : String
  StopOnQuotaReach : Bool
  TenantDomain : String
  TimeStamp : Int
deriving DecidableEq, Repr

/-- The package-level catalog collections and timestamp maps (lines
44-55), gathered into one state record.  The timestamp maps
map[string]int64 are association lists with unique keys. -/
structure CatalogState where
  SubList : List Subscription
  AppKeyMappingList : List ApplicationKeyMapping
  APIList : List API
  ScopeList : List Scope
  AppPolicyList : List ApplicationPolicy
  SubPolicyList : List SubscriptionPolicy
  AppList : List Application
  APIListTimeStamp : List (String × Int)
  ApplicationListTimeStamp : List (String × Int)
deriving DecidableEq, Repr

/-- The initial state: every collection and map starts empty (the make
calls at lines 44-55). -/
def initialState : CatalogState :=
  { SubList := [], AppKeyMappingList := [], APIList := [], ScopeList := [],
    AppPolicyList := [], SubPolicyList := [], AppList := [],
    APIListTimeStamp := [], ApplicationListTimeStamp := [] }

/-- Go map write m[k] = v on the association-list model: update the entry
for k in place if present, otherwise append a fresh entry. -/
def mapUpdate (k : String) (v : Int) : List (String × Int) → List (String × Int)
  | [] => [(k, v)]
  | p :: rest => if p.1 = k then (k, v) :: rest else p :: mapUpdate k v rest

/-- Go map read m[k] with the int64 zero value 0 for a missing key. -/
def lookupTS (k : String) : List (String × Int) → Int
  | [] => 0
  | p :: rest => if p.1 = k then p.2 else lookupTS k rest

/-- The freshness-scan loop of handleAPIEvents (lines 94-103): iterate
the entries of APIListTimeStamp; a visited key that EqualFold-matches the
incoming API id supplies oldTimeStamp; every other visited key triggers
the write APIListTimeStamp[apiEvent.APIID] = newTimeStamp.  The range is
over an alias of the map being written, so: iteration order is
unspecified (the ord argument lists the visited keys in order); the value
produced at a visit is the entry's value at that moment, read here by a
live lookup, so the loop's own write is visible to a later visit of the
incoming key; and an entry created by the write (incoming key absent at
loop entry) may be produced later in the iteration or skipped — both are
representable since ord is an arbitrary key list.  Theorems quantify over
the admissible orders they need (permutations of the keys present at
loop entry, the executions in which a created entry is skipped; a
produced created entry is a visit of the incoming key reading the new
timestamp, covered wherever ord is unconstrained). -/
def scanLoop (apiID : String) (newTimeStamp : Int) :
    List String → Int × List (String × Int) → Int × List (String × Int)
  | [], acc => acc
  | k :: rest, acc =>
    if strEqualFold apiID k then
      scanLoop apiID newTimeStamp rest (lookupTS k acc.2, acc.2)
    else
      scanLoop apiID newTimeStamp rest (acc.1, mapUpdate apiID newTimeStamp acc.2)

/-- The whole freshness scan: runs the loop over the given iteration
order of the timestamp map's keys, starting from oldTimeStamp = 0 and the
unmodified map; returns the captured timestamp and the resulting map. -/
def apiTimeStampScan (apiID : String) (newTimeStamp : Int)
    (m : List (String × Int)) (ord : List String) : Int × List (String × Int) :=
  scanLoop apiID newTimeStamp ord (0, m)

/-- Helper describing what the scan's first component computes: the value
of the last EqualFold-matching entry, defaulting to 0. -/
def recordedLoop (apiID : String) : List (String × Int) → Int → Int
  | [], a => a
  | p :: rest, a => recordedLoop apiID rest (if strEqualFold apiID p.1 then p.2 else a)

/-- The previously recorded timestamp for an API identifier: the value of
the last EqualFold-matching entry of the map, 0 when none matches. -/
def recordedTimeStamp (apiID : String) (m : List (String × Int)) : Int :=
  recordedLoop apiID m 0

/-- The removal loop of handleAPIEvents (lines 106-113): the copy and
truncate idiom deletes the first record whose APIID EqualFold-matches the
incoming id and breaks, preserving the order of the remaining records. -/
def removeFirstAPIMatch (apiID : String) : List API → List API
  | [] => []
  | a :: rest => if strEqualFold apiID a.APIID then rest else a :: removeFirstAPIMatch apiID rest

/-- The API record built by the deploy branch (lines 116-119). -/
def apiFromEvent (apiEvent : APIEvent) : API :=
  { APIID := apiEvent.APIID, Provider := apiEvent.APIProvider, Name := apiEvent.APIName,
    Version := apiEvent.APIVersion, Context := apiEvent.APIContext, APIType := apiEvent.APIType,
    IsDefaultVersion := true, TenantID := -1, TenantDomain := apiEvent.Event.TenantDomain,
    TimeStamp := apiEvent.Event.TimeStamp }

/-- handleAPIEvents (lines 91-122): run the freshness scan under the
given map-iteration order, then either remove the matching record (remove
subtype with a strictly newer captured timestamp), append a record built
from the event (deploy subtype), or do nothing to the collection.  The
scan's resulting map is the new APIListTimeStamp in every case. -/
def handleAPIEvents (ord : List String) (apiEvent : APIEvent) (s : CatalogState) :
    CatalogState :=
  if strEqualFold removeAPIFromGateway apiEvent.Event.Type_ ∧
      (apiTimeStampScan apiEvent.APIID apiEvent.Event.TimeStamp s.APIListTimeStamp ord).1
        < apiEvent.Event.TimeStamp then
    { s with APIList := removeFirstAPIMatch apiEvent.APIID s.APIList,
             APIListTimeStamp :=
               (apiTimeStampScan apiEvent.APIID apiEvent.Event.TimeStamp
                 s.APIListTimeStamp ord).2 }
  else if strEqualFold deployAPIToGateway apiEvent.Event.Type_ then
    { s with APIList := s.APIList ++ [apiFromEvent apiEvent],
             APIListTimeStamp :=
               (apiTimeStampScan apiEvent.APIID apiEvent.Event.TimeStamp
                 s.APIListTimeStamp ord).2 }
  else
    { s with APIListTimeStamp :=
               (apiTimeStampScan apiEvent.APIID apiEvent.Event.TimeStamp
                 s.APIListTimeStamp ord).2 }

/-- The key-mapping record built at lines 131-134. -/
def appKeyMappingFromEvent (e : ApplicationRegistrationEvent) : ApplicationKeyMapping :=
  { ApplicationID := e.ApplicationID, ConsumerKey := e.ConsumerKey, KeyType := e.KeyType,
    KeyManager := e.KeyManager, TenantID := -1, TenantDomain := e.TenantDomain,
    TimeStamp := e.TimeStamp }

/-- The application record built at lines 140-142 (Attributes is set to
nil in the source). -/
def applicationFromEvent (e : ApplicationEvent) : Application :=
  { UUID := e.UUID, ID := e.ApplicationID, Name := e.ApplicationName, SubName := e.Subscriber,
    Policy := e.ApplicationPolicy, TokenType := e.TokenType, GroupIds := e.GroupID,
    Attributes := none, TenantID := -1, TenantDomain := e.TenantDomain,
    TimeStamp := e.TimeStamp }

/-- handleApplicationEvents (lines 125-147).  The same decoded payload
offers both sub-shapes; the original event-type string selects which one
is used.  Both branches append unconditionally. -/
def handleApplicationEvents (eventType : String) (regEvent : ApplicationRegistrationEvent)
    (appEvent : ApplicationEvent) (s : CatalogState) : CatalogState :=
  if strEqualFold applicationRegistration eventType ||
      strEqualFold removeApplicationKeyMapping eventType then
    { s with AppKeyMappingList := s.AppKeyMappingList ++ [appKeyMappingFromEvent regEvent] }
  else
    { s with AppList := s.AppList ++ [applicationFromEvent appEvent] }

/-- The subscription record built at lines 153-155. -/
def subscriptionFromEvent (e : SubscriptionEvent) : Subscription :=
  { SubscriptionID := e.SubscriptionID, PolicyID := e.PolicyID, APIID := e.APIID,
    AppID := e.ApplicationID, SubscriptionState := e.SubscriptionState,
    TenantID := e.TenantID, TenantDomain := e.TenantDomain, TimeStamp := e.TimeStamp }

/-- handleSubscriptionEvents (lines 150-159): unconditional append. -/
def handleSubscriptionEvents (subscriptionEvent : SubscriptionEvent)
    (s : CatalogState) : CatalogState :=
  { s with SubList := s.SubList ++ [subscriptionFromEvent subscriptionEvent] }

/-- The scope record built at line 165. -/
def scopeFromEvent (e : ScopeEvent) : Scope :=
  { Name := e.Name, DisplayName := e.DisplayName, ApplicationName := e.ApplicationName }

/-- handleScopeEvents (lines 162-168): unconditional append. -/
def handleScopeEvents (scopeEvent : ScopeEvent) (s : CatalogState) : CatalogState :=
  { s with ScopeList := s.ScopeList ++ [scopeFromEvent scopeEvent] }

/-- The application-policy record built at lines 188-189. -/
def applicationPolicyFromEvent (e : PolicyInfo) : ApplicationPolicy :=
  { ID := e.PolicyID, TenantID := -1, Name := e.PolicyName, QuotaType := e.QuotaType }

/-- The subscription-policy record built at lines 196-201. -/
def subscriptionPolicyFromEvent (e : SubscriptionPolicyEvent) : SubscriptionPolicy :=
  { ID := e.PolicyID, TenantID := -1, Name := e.PolicyName, QuotaType := e.QuotaType,
    GraphQLMaxComplexity := e.GraphQLMaxComplexity, GraphQLMaxDepth := e.GraphQLMaxDepth,
    RateLimitCount := e.RateLimitCount, RateLimitTimeUnit := e.RateLimitTimeUnit,
    StopOnQuotaReach := e.StopOnQuotaReach, TenantDomain := e.TenantDomain,
    TimeStamp := e.TimeStamp }

/-- handlePolicyEvents (lines 171-205).  The lifecycle logging chain at
lines 176-182 has no state effect and is omitted.  The API-typed branch
only decodes a sub-shape and mutates nothing; the application-typed and
subscription-typed branches append one record each. -/
def handlePolicyEvents (eventType : String) (policyEvent : PolicyInfo)
    (subscriptionPolicyEvent : SubscriptionPolicyEvent) (s : CatalogState) : CatalogState :=
  if strEqualFold apiEventType policyEvent.PolicyType then
    s
  else if strEqualFold applicationEventType policyEvent.PolicyType then
    { s with AppPolicyList := s.AppPolicyList ++ [applicationPolicyFromEvent policyEvent] }
  else if strEqualFold subscriptionEventType policyEvent.PolicyType then
    { s with SubPolicyList := s.SubPolicyList ++ [subscriptionPolicyFromEvent subscriptionPolicyEvent] }
  else
    s

/-- The five handler categories of the router. -/
inductive Handler where
  | api
  | application
  | subscription
  | scope
  | policy
deriving DecidableEq, Repr

/-- The routing chain of handleNotification (lines 73-83): substring
checks in fixed order, Policy as fallback. -/
def routeEvent (eventType : String) : Handler :=
  if strContains eventType apiEventType then .api
  else if strContains eventType applicationEventType then .application
  else if strContains eventType subscriptionEventType then .subscription
  else if strContains eventType scopeEvenType then .scope
  else .policy

/-- All decoded views of one inner event payload.  Each handler
unmarshals the same decoded bytes into its own shape; JSON decoding is
outside the model, so a payload is represented by the tuple of decoded
shapes the handlers could extract from it. -/
structure DecodedViews where
  apiEvent : APIEvent
  regEvent : ApplicationRegistrationEvent
  appEvent : ApplicationEvent
  subEvent : SubscriptionEvent
  scopeEvent : ScopeEvent
  policyInfo : PolicyInfo
  subPolicyEvent : SubscriptionPolicyEvent
deriving DecidableEq, Repr

/-- Processing of one decoded event: route by the event-type string and
apply the selected category handler (lines 73-83).  The ord argument is
the map-iteration order used if the event reaches the API handler. -/
def processEvent (ord : List String) (eventType : String) (v : DecodedViews)
    (s : CatalogState) : CatalogState :=
  match routeEvent eventType with
  | .api => handleAPIEvents ord v.apiEvent s
  | .application => handleApplicationEvents eventType v.regEvent v.appEvent s
  | .subscription => handleSubscriptionEvents v.subEvent s
  | .scope => handleScopeEvents v.scopeEvent s
  | .policy => handlePolicyEvents eventType v.policyInfo v.subPolicyEvent s

/-- One delivery as seen after envelope JSON decoding: the extracted
event-type string together with the result of base64-decoding the inner
payload.  An error value models a failed base64 decode (or any other
decode error while extracting the payload); success carries the decoded
views of the payload bytes. -/
structure Delivery where
  eventType : String
  payloadDecode : Except String DecodedViews
deriving Repr

/-- The consumption loop handleNotification (lines 58-88), folded over a
finite delivery sequence.  The second argument supplies one map-iteration
order per processed message (the runtime picks one per ranged loop).
Returns the final catalog state, the number of acknowledged messages, and
whether the loop reached the channel-closed exit (true) rather than
aborting by panic on a decode error (false).  A panic stops the pipeline
before the category handler and the acknowledgement of the failing
message. -/
def handleNotification :
    List Delivery → List (List String) → CatalogState → CatalogState × Nat × Bool
  | [], _, s => (s, 0, true)
  | d :: rest, ords, s =>
    match d.payloadDecode with
    | .error _ => (s, 0, false)
    | .ok v =>
      let s' := processEvent (ords.headD []) d.eventType v s
      let r := handleNotification rest ords.tail s'
      (r.1, r.2.1 + 1, r.2.2)

/-- The router's category patterns in their fixed precedence order. -/
def routeTable : List (String × Handler) :=
  [(apiEventType, .api), (applicationEventType, .application),
   (subscriptionEventType, .subscription), (scopeEvenType, .scope)]

/-- Routing written the way the spec words it (sections 4.2 and 9): an
explicit ordered list of (substring, handler) pairs evaluated in
sequence, first match wins, Policy handler as the default category. -/
def routeSpec (eventType : String) : Handler :=
  match routeTable.find? (fun p => strContains eventType p.1) with
  | some p => p.2
  | none => .policy

/-- The three append-only event categories of claim C5. -/
inductive AppSubScopeKind where
  | application
  | subscription
  | scope
deriving DecidableEq, Repr

/-- One event of an append-only category, with the decoded views its
handler consumes. -/
inductive AppSubScopeEvent where
  | application (eventType : String) (regEvent : ApplicationRegistrationEvent)
      (appEvent : ApplicationEvent)
  | subscription (subEvent : SubscriptionEvent)
  | scope (scopeEvent : ScopeEvent)
deriving DecidableEq, Repr

/-- The category of an append-only event. -/
def kindOfEvent : AppSubScopeEvent → AppSubScopeKind
  | .application .. => .application
  | .subscription _ => .subscription
  | .scope _ => .scope

/-- Dispatch one append-only event to its handler. -/
def applyAppSubScope : AppSubScopeEvent → CatalogState → CatalogState
  | .application et reg appEv, s => handleApplicationEvents et reg appEv s
  | .subscription ev, s => handleSubscriptionEvents ev s
  | .scope ev, s => handleScopeEvents ev s

/-- Handle a sequence of append-only events in order. -/
def applyAppSubScopeSeq : List AppSubScopeEvent → CatalogState → CatalogState
  | [], s => s
  | e :: rest, s => applyAppSubScopeSeq rest (applyAppSubScope e s)

/-- The total number of records in the collections a category's handler
appends to (the Application handler appends to either the key-mapping or
the application collection depending on the event-type string). -/
def appSubScopeSize : AppSubScopeKind → CatalogState → Nat
  | .application, s => s.AppKeyMappingList.length + s.AppList.length
  | .subscription, s => s.SubList.length
  | .scope, s => s.ScopeList.length

/-- Frame condition for claim C7: the collections and timestamp maps of
every category other than the handled one are unchanged. -/
def otherKindsUnchanged : Handler → CatalogState → CatalogState → Prop
  | .api, s, t =>
    t.SubList = s.SubList ∧ t.AppKeyMappingList = s.AppKeyMappingList ∧
    t.ScopeList = s.ScopeList ∧ t.AppPolicyList = s.AppPolicyList ∧
    t.SubPolicyList = s.SubPolicyList ∧ t.AppList = s.AppList ∧
    t.ApplicationListTimeStamp = s.ApplicationListTimeStamp
  | .application, s, t =>
    t.SubList = s.SubList ∧ t.APIList = s.APIList ∧
    t.ScopeList = s.ScopeList ∧ t.AppPolicyList = s.AppPolicyList ∧
    t.SubPolicyList = s.SubPolicyList ∧ t.APIListTimeStamp = s.APIListTimeStamp
  | .subscription, s, t =>
    t.AppKeyMappingList = s.AppKeyMappingList ∧ t.APIList = s.APIList ∧
    t.ScopeList = s.ScopeList ∧ t.AppPolicyList = s.AppPolicyList ∧
    t.SubPolicyList = s.SubPolicyList ∧ t.AppList = s.AppList ∧
    t.APIListTimeStamp = s.APIListTimeStamp ∧
    t.ApplicationListTimeStamp = s.ApplicationListTimeStamp
  | .scope, s, t =>
    t.SubList = s.SubList ∧ t.AppKeyMappingList = s.AppKeyMappingList ∧
    t.APIList = s.APIList ∧ t.AppPolicyList = s.AppPolicyList ∧
    t.SubPolicyList = s.SubPolicyList ∧ t.AppList = s.AppList ∧
    t.APIListTimeStamp = s.APIListTimeStamp ∧
    t.ApplicationListTimeStamp = s.ApplicationListTimeStamp
  | .policy, s, t =>
    t.SubList = s.SubList ∧ t.AppKeyMappingList = s.AppKeyMappingList ∧
    t.APIList = s.APIList ∧ t.ScopeList = s.ScopeList ∧
    t.AppList = s.AppList ∧
    t.APIListTimeStamp = s.APIListTimeStamp ∧
    t.ApplicationListTimeStamp = s.ApplicationListTimeStamp

/- Concrete inputs used by witnesses and counterexamples. -/

/-- Sample API catalog record with identifier a1. -/
def sampleAPI : API :=
  { APIID := "a1", Provider := "prov", Name := "PizzaShack", Version := "v1",
    Context := "/pizza", APIType := "HTTP", IsDefaultVersion := true, TenantID := -1,
    TenantDomain := "carbon.super", TimeStamp := 10 }

/-- Sample remove event for identifier a1 with timestamp 100. -/
def removeEventA1 : APIEvent :=
  { APIID := "a1", APIProvider := "prov", APIName := "PizzaShack", APIVersion := "v1",
    APIContext := "/pizza", APIType := "HTTP",
    Event := { Type_ := "REMOVE_API_FROM_GATEWAY", TimeStamp := 100,
               TenantDomain := "carbon.super" } }

/-- Sample deploy event for identifier a1 with timestamp 100. -/
def deployEventA1 : APIEvent :=
  { APIID := "a1", APIProvider := "prov", APIName := "PizzaShack", APIVersion := "v1",
    APIContext := "/pizza", APIType := "HTTP",
    Event := { Type_ := "DEPLOY_API_IN_GATEWAY", TimeStamp := 100,
               TenantDomain := "carbon.super" } }

/-- State whose API collection holds the a1 record and whose timestamp
map records timestamp 100 for a1. -/
def stateA1At100 : CatalogState :=
  { initialState with APIList := [sampleAPI], APIListTimeStamp := [("a1", 100)] }

/-- State whose API collection holds the a1 record, with timestamp 50
recorded for a1 and 7 for an unrelated key b. -/
def stateA1At50 : CatalogState :=
  { initialState with APIList := [sampleAPI],
                      APIListTimeStamp := [("a1", 50), ("b", 7)] }

/-- State whose API collection holds the a1 record and whose timestamp
map is empty. -/
def stateA1NoTS : CatalogState :=
  { initialState with APIList := [sampleAPI] }

/-- State whose API collection holds the a1 record and whose timestamp
map records only timestamp 50 for a1 (no unrelated key). -/
def stateA1Only50 : CatalogState :=
  { initialState with APIList := [sampleAPI], APIListTimeStamp := [("a1", 50)] }

/-- State whose API collection holds the a1 record and whose timestamp
map holds two distinct keys that EqualFold-match a1: A1 at 0 and a1 at
100. -/
def stateFoldDup : CatalogState :=
  { initialState with APIList := [sampleAPI],
                      APIListTimeStamp := [("A1", 0), ("a1", 100)] }

/-- Sample subscription event with a given subscription id. -/
def subEventNamed (sid : String) : SubscriptionEvent :=
  { SubscriptionID := sid, PolicyID := "Gold", APIID := "a1", ApplicationID := "app1",
    SubscriptionState := "UNBLOCKED", TenantID := -1, TenantDomain := "carbon.super",
    TimeStamp := 5 }

/-- Three subscription events with distinct subscription ids. -/
def threeSubEvents : List AppSubScopeEvent :=
  [.subscription (subEventNamed "s1"), .subscription (subEventNamed "s2"),
   .subscription (subEventNamed "s3")]

/-- Sample application-registration event. -/
def sampleRegEvent : ApplicationRegistrationEvent :=
  { ApplicationID := "app1", ConsumerKey := "ck", KeyType := "PRODUCTION",
    KeyManager := "default", TenantDomain := "carbon.super", TimeStamp := 5 }

/-- Sample application event. -/
def sampleAppEvent : ApplicationEvent :=
  { UUID := "u1", ApplicationID := "app1", ApplicationName := "MyApp",
    Subscriber := "admin", ApplicationPolicy := "Unlimited", TokenType := "JWT",
    GroupID := "g1", TenantDomain := "carbon.super", TimeStamp := 5 }

/-- Sample scope event. -/
def sampleScopeEvent : ScopeEvent :=
  { Name := "read", DisplayName := "Read", ApplicationName := "MyApp" }

/-- Sample policy envelope typed subscriptions (lowercase, exercising the
case-insensitive match). -/
def subPolicyInfo : PolicyInfo :=
  { PolicyID := "pol1", PolicyName := "Gold", QuotaType := "Q",
    PolicyType := "subscriptions" }

/-- Sample policy envelope typed API. -/
def apiPolicyInfo : PolicyInfo :=
  { PolicyID := "pol2", PolicyName := "Bronze", QuotaType := "Q", PolicyType := "API" }

/-- Sample subscription-policy event with quota type Q and GraphQL max
depth 5. -/
def samplePolicyEvent : SubscriptionPolicyEvent :=
  { PolicyID := "pol1", PolicyName := "Gold", QuotaType := "Q",
    GraphQLMaxComplexity := 0, GraphQLMaxDepth := 5, RateLimitCount := 10,
    RateLimitTimeUnit := "min", StopOnQuotaReach := true,
    TenantDomain := "carbon.super", TimeStamp := 42 }

/-- Sample decoded views bundle. -/
def sampleViews : DecodedViews :=
  { apiEvent := deployEventA1, regEvent := sampleRegEvent, appEvent := sampleAppEvent,
    subEvent := subEventNamed "s1", scopeEvent := sampleScopeEvent,
    policyInfo := subPolicyInfo, subPolicyEvent := samplePolicyEvent }

/-- A delivery whose inner payload fails base64 decoding. -/
def corruptDelivery : Delivery :=
  { eventType := "API", payloadDecode := .error "illegal base64 data" }

/-- A delivery that decodes successfully. -/
def okDelivery : Delivery :=
  { eventType := "API", payloadDecode := .ok sampleViews }

/- Helper lemmas about the freshness scan and the removal loop. -/

/-- The map write of the scan is idempotent. -/
theorem mapUpdate_idem (k : String) (v : Int) :
    ∀ m, mapUpdate k v (mapUpdate k v m) = mapUpdate k v m := by
  intro m
  induction m with
  | nil => simp [mapUpdate]
  | cons p rest ih =>
    by_cases h : p.1 = k
    · simp [mapUpdate, h]
    · simp [mapUpdate, h, ih]

/-- Reading the written key after a map write yields the written value. -/
theorem lookupTS_mapUpdate_self (k : String) (v : Int) :
    ∀ m, lookupTS k (mapUpdate k v m) = v := by
  intro m
  induction m with
  | nil => simp [mapUpdate, lookupTS]
  | cons p rest ih =>
    by_cases h : p.1 = k
    · simp [mapUpdate, lookupTS, h]
    · simp [mapUpdate, lookupTS, h, ih]

/-- Reading any other key is unaffected by a map write. -/
theorem lookupTS_mapUpdate_ne (j k : String) (v : Int) (hjk : j ≠ k) :
    ∀ m, lookupTS j (mapUpdate k v m) = lookupTS j m := by
  intro m
  induction m with
  | nil => simp [mapUpdate, lookupTS, Ne.symm hjk]
  | cons p rest ih =>
    by_cases h : p.1 = k
    · simp [mapUpdate, lookupTS, h, Ne.symm hjk]
    · simp [mapUpdate, lookupTS, h, ih]

/-- A key present in the map is looked up to the value of one of its
entries. -/
theorem lookupTS_mem (k : String) :
    ∀ m : List (String × Int), k ∈ m.map Prod.fst →
    ∃ p ∈ m, p.1 = k ∧ lookupTS k m = p.2 := by
  intro m
  induction m with
  | nil => intro h; simp at h
  | cons p rest ih =>
    intro h
    by_cases hp : p.1 = k
    · exact ⟨p, List.mem_cons_self p rest, hp, by simp [lookupTS, hp]⟩
    · have hk : k ∈ rest.map Prod.fst := by
        rcases List.mem_map.mp h with ⟨q, hq, hqk⟩
        rcases List.mem_cons.mp hq with rfl | hq2
        · exact absurd hqk hp
        · exact hqk ▸ List.mem_map_of_mem _ hq2
      obtain ⟨q, hq, hqk, hql⟩ := ih hk
      exact ⟨q, List.mem_cons_of_mem p hq, hqk, by simp [lookupTS, hp, hql]⟩

/-- Any lookup is either the zero default or the value of an entry whose
key is the looked-up key. -/
theorem lookupTS_cases (k : String) :
    ∀ m : List (String × Int),
    lookupTS k m = 0 ∨ ∃ p ∈ m, p.1 = k ∧ lookupTS k m = p.2 := by
  intro m
  induction m with
  | nil => exact Or.inl rfl
  | cons p rest ih =>
    by_cases hp : p.1 = k
    · exact Or.inr ⟨p, List.mem_cons_self p rest, hp, by simp [lookupTS, hp]⟩
    · rcases ih with h0 | ⟨q, hq, hqk, hql⟩
      · exact Or.inl (by simp [lookupTS, hp, h0])
      · exact Or.inr ⟨q, List.mem_cons_of_mem p hq, hqk, by simp [lookupTS, hp, hql]⟩

/-- The scan's resulting map, for every iteration order: one write of the
incoming key when some visited key does not EqualFold-match the incoming
id, no write at all otherwise. -/
theorem scanLoop_snd (apiID : String) (ts : Int) :
    ∀ (ord : List String) (a : Int) (b : List (String × Int)),
    (scanLoop apiID ts ord (a, b)).2
      = if ord.any (fun k => ! strEqualFold apiID k) then mapUpdate apiID ts b else b := by
  intro ord
  induction ord with
  | nil => intro a b; rfl
  | cons k rest ih =>
    intro a b
    cases h : strEqualFold apiID k
    case false =>
      have hred : scanLoop apiID ts (k :: rest) (a, b)
          = scanLoop apiID ts rest (a, mapUpdate apiID ts b) := by
        simp [scanLoop, h]
      rw [hred, ih, List.any_cons, h, Bool.not_false, Bool.true_or, if_pos rfl]
      by_cases hr : (rest.any fun q => !strEqualFold apiID q) = true
      · rw [if_pos hr, mapUpdate_idem]
      · rw [if_neg hr]
    case true =>
      have hred : scanLoop apiID ts (k :: rest) (a, b)
          = scanLoop apiID ts rest (lookupTS k b, b) := by
        simp [scanLoop, h]
      rw [hred, ih, List.any_cons, h, Bool.not_true, Bool.false_or]

/-- During the scan the evolving map is always the original map or the
original map with the incoming key written; so when every EqualFold-match
of the original map carries a timestamp at least ts, every value the scan
can capture is at least ts — unless no visited key matches at all, in
which case the accumulator is untouched. -/
theorem scanLoop_fst_lb (apiID : String) (ts : Int) (m : List (String × Int))
    (h1 : ∀ p ∈ m, strEqualFold apiID p.1 = true → ts ≤ p.2) :
    ∀ ord : List String, (∀ k ∈ ord, k ∈ m.map Prod.fst) →
    ∀ (a : Int) (b : List (String × Int)),
    (b = m ∨ b = mapUpdate apiID ts m) →
    ((scanLoop apiID ts ord (a, b)).1 = a ∧ ∀ k ∈ ord, strEqualFold apiID k = false)
    ∨ ts ≤ (scanLoop apiID ts ord (a, b)).1 := by
  intro ord
  induction ord with
  | nil =>
    intro _ a b _
    refine Or.inl ⟨rfl, ?_⟩
    intro k hk
    simp at hk
  | cons k rest ih =>
    intro hsub a b hb
    have hkm : k ∈ m.map Prod.fst := hsub k (List.mem_cons_self k rest)
    have hsub2 : ∀ j ∈ rest, j ∈ m.map Prod.fst :=
      fun j hj => hsub j (List.mem_cons_of_mem k hj)
    cases h : strEqualFold apiID k
    case false =>
      have hred : scanLoop apiID ts (k :: rest) (a, b)
          = scanLoop apiID ts rest (a, mapUpdate apiID ts b) := by
        simp [scanLoop, h]
      have hb2 : mapUpdate apiID ts b = m ∨ mapUpdate apiID ts b = mapUpdate apiID ts m := by
        rcases hb with rfl | rfl
        · exact Or.inr rfl
        · exact Or.inr (mapUpdate_idem apiID ts m)
      rw [hred]
      rcases ih hsub2 a (mapUpdate apiID ts b) hb2 with ⟨he, hnone⟩ | hge
      · refine Or.inl ⟨he, ?_⟩
        intro j hj
        rcases List.mem_cons.mp hj with rfl | hj2
        · exact h
        · exact hnone j hj2
      · exact Or.inr hge
    case true =>
      have hread : ts ≤ lookupTS k b := by
        rcases hb with rfl | rfl
        · obtain ⟨p, hp, hpk, hpl⟩ := lookupTS_mem k b hkm
          rw [hpl]
          exact h1 p hp (by rw [hpk]; exact h)
        · by_cases hk2 : k = apiID
          · rw [hk2, lookupTS_mapUpdate_self]
          · rw [lookupTS_mapUpdate_ne k apiID ts hk2]
            obtain ⟨p, hp, hpk, hpl⟩ := lookupTS_mem k m hkm
            rw [hpl]
            exact h1 p hp (by rw [hpk]; exact h)
      have hred : scanLoop apiID ts (k :: rest) (a, b)
          = scanLoop apiID ts rest (lookupTS k b, b) := by
        simp [scanLoop, h]
      rw [hred]
      rcases ih hsub2 (lookupTS k b) b hb with ⟨he, _⟩ | hge
      · exact Or.inr (by rw [he]; exact hread)
      · exact Or.inr hge

/-- When every visited key EqualFold-matches the incoming id, the scan
never writes; the map survives unchanged and the captured value is the
start value (empty order) or a live read of some visited key. -/
theorem scanLoop_allMatch (apiID : String) (ts : Int) :
    ∀ ord : List String, (∀ k ∈ ord, strEqualFold apiID k = true) →
    ∀ (a : Int) (b : List (String × Int)),
    (scanLoop apiID ts ord (a, b)).2 = b
    ∧ ((scanLoop apiID ts ord (a, b)).1 = a ∧ ord = []
       ∨ ∃ k ∈ ord, (scanLoop apiID ts ord (a, b)).1 = lookupTS k b) := by
  intro ord
  induction ord with
  | nil => intro _ a b; exact ⟨rfl, Or.inl ⟨rfl, rfl⟩⟩
  | cons k rest ih =>
    intro hm a b
    have hk : strEqualFold apiID k = true := hm k (List.mem_cons_self k rest)
    have hm2 : ∀ j ∈ rest, strEqualFold apiID j = true :=
      fun j hj => hm j (List.mem_cons_of_mem k hj)
    have hred : scanLoop apiID ts (k :: rest) (a, b)
        = scanLoop apiID ts rest (lookupTS k b, b) := by
      simp [scanLoop, hk]
    obtain ⟨hmap, hcap⟩ := ih hm2 (lookupTS k b) b
    rw [hred]
    refine ⟨hmap, ?_⟩
    rcases hcap with ⟨he, _⟩ | ⟨j, hj, hje⟩
    · exact Or.inr ⟨k, List.mem_cons_self k rest, he⟩
    · exact Or.inr ⟨j, List.mem_cons_of_mem k hj, hje⟩

/-- For every iteration order whatsoever, the value the scan captures is
0, the event's own timestamp (a visit of the incoming key after the
write, including a produced created entry), or the recorded value of some
EqualFold-matching entry of the original map. -/
theorem scanLoop_fst_cases (apiID : String) (ts : Int) (m : List (String × Int)) :
    ∀ ord : List String, ∀ (a : Int) (b : List (String × Int)),
    (b = m ∨ b = mapUpdate apiID ts m) →
    (a = 0 ∨ a = ts ∨ ∃ p ∈ m, strEqualFold apiID p.1 = true ∧ a = p.2) →
    ((scanLoop apiID ts ord (a, b)).1 = 0 ∨ (scanLoop apiID ts ord (a, b)).1 = ts
     ∨ ∃ p ∈ m, strEqualFold apiID p.1 = true ∧ (scanLoop apiID ts ord (a, b)).1 = p.2) := by
  intro ord
  induction ord with
  | nil => intro a b _ ha; exact ha
  | cons k rest ih =>
    intro a b hb ha
    cases h : strEqualFold apiID k
    case false =>
      have hred : scanLoop apiID ts (k :: rest) (a, b)
          = scanLoop apiID ts rest (a, mapUpdate apiID ts b) := by
        simp [scanLoop, h]
      have hb2 : mapUpdate apiID ts b = m ∨ mapUpdate apiID ts b = mapUpdate apiID ts m := by
        rcases hb with rfl | rfl
        · exact Or.inr rfl
        · exact Or.inr (mapUpdate_idem apiID ts m)
      rw [hred]
      exact ih a (mapUpdate apiID ts b) hb2 ha
    case true =>
      have hread : lookupTS k b = 0 ∨ lookupTS k b = ts
          ∨ ∃ p ∈ m, strEqualFold apiID p.1 = true ∧ lookupTS k b = p.2 := by
        rcases hb with rfl | rfl
        · rcases lookupTS_cases k b with h0 | ⟨p, hp, hpk, hpl⟩
          · exact Or.inl h0
          · exact Or.inr (Or.inr ⟨p, hp, by rw [hpk]; exact h, hpl⟩)
        · by_cases hk2 : k = apiID
          · exact Or.inr (Or.inl (by rw [hk2, lookupTS_mapUpdate_self]))
          · rw [lookupTS_mapUpdate_ne k apiID ts hk2]
            rcases lookupTS_cases k m with h0 | ⟨p, hp, hpk, hpl⟩
            · exact Or.inl h0
            · exact Or.inr (Or.inr ⟨p, hp, by rw [hpk]; exact h, hpl⟩)
      have hred : scanLoop apiID ts (k :: rest) (a, b)
          = scanLoop apiID ts rest (lookupTS k b, b) := by
        simp [scanLoop, h]
      rw [hred]
      exact ih (lookupTS k b) b hb hread

/-- The recorded timestamp defaults to 0 when no entry's key
EqualFold-matches the identifier. -/
theorem recordedLoop_nomatch (apiID : String) :
    ∀ m : List (String × Int), (∀ p ∈ m, strEqualFold apiID p.1 = false) →
    ∀ a, recordedLoop apiID m a = a := by
  intro m
  induction m with
  | nil => intro _ a; rfl
  | cons p rest ih =>
    intro h a
    have hp : strEqualFold apiID p.1 = false := h p (List.mem_cons_self p rest)
    have h2 : ∀ q ∈ rest, strEqualFold apiID q.1 = false :=
      fun q hq => h q (List.mem_cons_of_mem p hq)
    simp [recordedLoop, hp, ih h2]

/-- The full scan's resulting map, in closed form over the visited
keys. -/
theorem apiTimeStampScan_snd (apiID : String) (ts : Int) (m : List (String × Int))
    (ord : List String) :
    (apiTimeStampScan apiID ts m ord).2
      = if ord.any (fun k => ! strEqualFold apiID k) then mapUpdate apiID ts m else m :=
  scanLoop_snd apiID ts ord 0 m

/-- Under a permutation of the map's keys, the scan's write condition is
the existence of a non-matching key of the map itself. -/
theorem any_nonmatch_perm (apiID : String) (m : List (String × Int)) (ord : List String)
    (hord : ord.Perm (m.map Prod.fst)) :
    (ord.any fun k => ! strEqualFold apiID k)
      = (m.any fun p => ! strEqualFold apiID p.1) := by
  cases ho : ord.any (fun k => ! strEqualFold apiID k)
  · cases hm : m.any (fun p => ! strEqualFold apiID p.1)
    · rfl
    · exfalso
      rcases List.any_eq_true.mp hm with ⟨p, hp, hnp⟩
      have hpo : p.1 ∈ ord := hord.mem_iff.mpr (List.mem_map_of_mem _ hp)
      have htrue : (ord.any fun k => ! strEqualFold apiID k) = true :=
        List.any_eq_true.mpr ⟨p.1, hpo, hnp⟩
      rw [ho] at htrue
      simp at htrue
  · rcases List.any_eq_true.mp ho with ⟨k, hk, hnk⟩
    have hkm : k ∈ m.map Prod.fst := hord.mem_iff.mp hk
    rcases List.mem_map.mp hkm with ⟨p, hp, hpk⟩
    have htrue : (m.any fun p => ! strEqualFold apiID p.1) = true :=
      List.any_eq_true.mpr ⟨p, hp, by rw [hpk]; exact hnk⟩
    rw [htrue]

/-- Removal keeps the remaining records in their original relative
order: the result is a sublist of the input. -/
theorem removeFirstAPIMatch_sublist (apiID : String) :
    ∀ l : List API, List.Sublist (removeFirstAPIMatch apiID l) l := by
  intro l
  induction l with
  | nil => simp [removeFirstAPIMatch]
  | cons a rest ih =>
    cases h : strEqualFold apiID a.APIID
    · simpa [removeFirstAPIMatch, h] using List.Sublist.cons₂ a ih
    · simpa [removeFirstAPIMatch, h] using List.Sublist.cons a (List.Sublist.refl rest)

/-- When some record matches, removal shortens the collection by exactly
one. -/
theorem removeFirstAPIMatch_length (apiID : String) :
    ∀ l : List API, (l.any fun a => strEqualFold apiID a.APIID) = true →
    (removeFirstAPIMatch apiID l).length + 1 = l.length := by
  intro l
  induction l with
  | nil => intro h; simp at h
  | cons a rest ih =>
    intro h
    cases hm : strEqualFold apiID a.APIID
    · have hrest : (rest.any fun b => strEqualFold apiID b.APIID) = true := by
        simpa [hm] using h
      simp [removeFirstAPIMatch, hm, ih hrest]
    · simp [removeFirstAPIMatch, hm]

/-- When some record matches, removal deletes exactly one matching
record. -/
theorem removeFirstAPIMatch_countP (apiID : String) :
    ∀ l : List API, (l.any fun a => strEqualFold apiID a.APIID) = true →
    (removeFirstAPIMatch apiID l).countP (fun a => strEqualFold apiID a.APIID) + 1
      = l.countP (fun a => strEqualFold apiID a.APIID) := by
  intro l
  induction l with
  | nil => intro h; simp at h
  | cons a rest ih =>
    intro h
    cases hm : strEqualFold apiID a.APIID
    · have hrest : (rest.any fun b => strEqualFold apiID b.APIID) = true := by
        simpa [hm] using h
      simp [removeFirstAPIMatch, hm, List.countP_cons, ih hrest]
    · simp [removeFirstAPIMatch, hm, List.countP_cons]

/-- Counterexample to claim C1 as stated: with two distinct map keys that
both EqualFold-match the identifier (A1 at 0, a1 at 100), a remove event
for a1 at timestamp 100 satisfies the claim's hypothesis (100 does not
exceed the recorded timestamp 100), yet under the iteration order a1, A1
the loop's last matching visit captures 0, so the removal is honoured and
the collection changes. -/
theorem c1_counterexample :
    List.Perm ["a1", "A1"] (stateFoldDup.APIListTimeStamp.map Prod.fst)
    ∧ removeEventA1.Event.Type_ = removeAPIFromGateway
    ∧ removeEventA1.Event.TimeStamp
        ≤ recordedTimeStamp removeEventA1.APIID stateFoldDup.APIListTimeStamp
    ∧ (handleAPIEvents ["a1", "A1"] removeEventA1 stateFoldDup).APIList
        ≠ stateFoldDup.APIList := by
  decide

/-- Claim C1 as amended: for every API event whose subtype is
REMOVE_API_FROM_GATEWAY, every iteration order of the timestamp map's
keys, if the event's timestamp does not exceed the previously recorded
timestamp for the identifier and also does not exceed the recorded
timestamp of every EqualFold-matching key of the map (a strengthening
needed only when several distinct keys fold-match the identifier), the
API collection is left unchanged (stale-update rejection). -/
theorem c1_stale_remove_leaves_collection_unchanged
    (e : APIEvent) (s : CatalogState) (ord : List String)
    (hord : ord.Perm (s.APIListTimeStamp.map Prod.fst))
    (hty : e.Event.Type_ = removeAPIFromGateway)
    (hts : e.Event.TimeStamp ≤ recordedTimeStamp e.APIID s.APIListTimeStamp)
    (hall : ∀ p ∈ s.APIListTimeStamp, strEqualFold e.APIID p.1 = true →
      e.Event.TimeStamp ≤ p.2) :
    (handleAPIEvents ord e s).APIList = s.APIList := by
  have hsub : ∀ k ∈ ord, k ∈ s.APIListTimeStamp.map Prod.fst :=
    fun k hk => hord.mem_iff.mp hk
  have hbd := scanLoop_fst_lb e.APIID e.Event.TimeStamp s.APIListTimeStamp hall ord hsub
    0 s.APIListTimeStamp (Or.inl rfl)
  have hnlt : ¬ (apiTimeStampScan e.APIID e.Event.TimeStamp s.APIListTimeStamp ord).1
      < e.Event.TimeStamp := by
    rcases hbd with ⟨h0, hnone⟩ | hge
    · have hnomatch : ∀ p ∈ s.APIListTimeStamp, strEqualFold e.APIID p.1 = false := by
        intro p hp
        have hpo : p.1 ∈ ord := hord.mem_iff.mpr (List.mem_map_of_mem _ hp)
        exact hnone p.1 hpo
      have hrec : recordedTimeStamp e.APIID s.APIListTimeStamp = 0 :=
        recordedLoop_nomatch e.APIID s.APIListTimeStamp hnomatch 0
      rw [hrec] at hts
      have hz : (apiTimeStampScan e.APIID e.Event.TimeStamp s.APIListTimeStamp ord).1
          = 0 := h0
      rw [hz]
      omega
    · have hge2 : e.Event.TimeStamp
          ≤ (apiTimeStampScan e.APIID e.Event.TimeStamp s.APIListTimeStamp ord).1 := hge
      omega
  have hdep : strEqualFold deployAPIToGateway e.Event.Type_ = false := by
    rw [hty]; decide
  simp [handleAPIEvents, hnlt, hdep]

/-- Witness for C1 as amended: with the single-key map recording 100 for
a1 and the one-element iteration order a1, the remove event for a1 at
timestamp 100 leaves the one-record API collection unchanged. -/
theorem c1_witness :
    List.Perm ["a1"] (stateA1At100.APIListTimeStamp.map Prod.fst)
    ∧ removeEventA1.Event.Type_ = removeAPIFromGateway
    ∧ removeEventA1.Event.TimeStamp
        ≤ recordedTimeStamp removeEventA1.APIID stateA1At100.APIListTimeStamp
    ∧ (handleAPIEvents ["a1"] removeEventA1 stateA1At100).APIList
        = stateA1At100.APIList :=
  ⟨by decide, rfl, by decide,
    c1_stale_remove_leaves_collection_unchanged removeEventA1 stateA1At100 ["a1"]
      (by decide) rfl (by decide) (by decide)⟩

/-- Counterexample to claim C2 as stated: on the map recording 50 for a1
and 7 for the unrelated key b, the remove event for a1 at timestamp 100
satisfies the claim's hypotheses (recorded 50 is strictly exceeded, a
matching record exists), yet under the iteration order b, a1 the visit of
b first writes a1 to 100 and the visit of a1 then captures that fresh
100, so the strict comparison fails and nothing is removed. -/
theorem c2_counterexample :
    List.Perm ["b", "a1"] (stateA1At50.APIListTimeStamp.map Prod.fst)
    ∧ removeEventA1.Event.Type_ = removeAPIFromGateway
    ∧ recordedTimeStamp removeEventA1.APIID stateA1At50.APIListTimeStamp
        < removeEventA1.Event.TimeStamp
    ∧ (stateA1At50.APIList.any fun a => strEqualFold removeEventA1.APIID a.APIID) = true
    ∧ (handleAPIEvents ["b", "a1"] removeEventA1 stateA1At50).APIList
        = stateA1At50.APIList := by
  decide

/-- Claim C2 as amended: a REMOVE_API_FROM_GATEWAY event whose timestamp
strictly exceeds the recorded timestamp removes exactly one matching
record under every iteration order, provided every key of the timestamp
map EqualFold-matches the event's identifier with a strictly older
recorded timestamp (no unrelated key; with an unrelated key present the
loop can overwrite the incoming key's entry before reading it, making the
removal order-dependent).  Then the length decreases by exactly one, the
result is a sublist of the original (relative order of the remaining
records preserved), and the number of matching records decreases by
exactly one. -/
theorem c2_fresh_remove_deletes_exactly_one
    (e : APIEvent) (s : CatalogState) (ord : List String)
    (hord : ord.Perm (s.APIListTimeStamp.map Prod.fst))
    (hty : e.Event.Type_ = removeAPIFromGateway)
    (hfresh : recordedTimeStamp e.APIID s.APIListTimeStamp < e.Event.TimeStamp)
    (hall : ∀ p ∈ s.APIListTimeStamp,
      strEqualFold e.APIID p.1 = true ∧ p.2 < e.Event.TimeStamp)
    (hmatch : (s.APIList.any fun a => strEqualFold e.APIID a.APIID) = true) :
    (handleAPIEvents ord e s).APIList.length + 1 = s.APIList.length
    ∧ List.Sublist (handleAPIEvents ord e s).APIList s.APIList
    ∧ (handleAPIEvents ord e s).APIList.countP (fun a => strEqualFold e.APIID a.APIID) + 1
        = s.APIList.countP (fun a => strEqualFold e.APIID a.APIID) := by
  have hm : ∀ k ∈ ord, strEqualFold e.APIID k = true := by
    intro k hk
    have hkm : k ∈ s.APIListTimeStamp.map Prod.fst := hord.mem_iff.mp hk
    obtain ⟨p, hp, hpk, _⟩ := lookupTS_mem k s.APIListTimeStamp hkm
    rw [← hpk]
    exact (hall p hp).1
  have hscan := scanLoop_allMatch e.APIID e.Event.TimeStamp ord hm 0 s.APIListTimeStamp
  have hlt : (apiTimeStampScan e.APIID e.Event.TimeStamp s.APIListTimeStamp ord).1
      < e.Event.TimeStamp := by
    rcases hscan.2 with ⟨h0, hnil⟩ | ⟨k, hk, hkv⟩
    · have hkeys : s.APIListTimeStamp.map Prod.fst = [] := by
        rw [hnil] at hord
        exact (hord.symm.eq_nil)
      have hmnil : s.APIListTimeStamp = [] := List.map_eq_nil.mp hkeys
      have hrec : recordedTimeStamp e.APIID s.APIListTimeStamp = 0 := by
        rw [hmnil]; rfl
      rw [hrec] at hfresh
      have hz : (apiTimeStampScan e.APIID e.Event.TimeStamp s.APIListTimeStamp ord).1
          = 0 := h0
      rw [hz]
      exact hfresh
    · have hkm : k ∈ s.APIListTimeStamp.map Prod.fst := hord.mem_iff.mp hk
      obtain ⟨p, hp, hpk, hpl⟩ := lookupTS_mem k s.APIListTimeStamp hkm
      have hv : (apiTimeStampScan e.APIID e.Event.TimeStamp s.APIListTimeStamp ord).1
          = p.2 := hkv.trans hpl
      rw [hv]
      exact (hall p hp).2
  have hrem : strEqualFold removeAPIFromGateway e.Event.Type_ = true := by
    rw [hty]; decide
  have hrm : (handleAPIEvents ord e s).APIList = removeFirstAPIMatch e.APIID s.APIList := by
    simp [handleAPIEvents, hrem, hlt]
  rw [hrm]
  exact ⟨removeFirstAPIMatch_length _ _ hmatch, removeFirstAPIMatch_sublist _ _,
    removeFirstAPIMatch_countP _ _ hmatch⟩

/-- Witness for C2 as amended: the remove event for a1 at timestamp 100
against the single-key map recording 50 for a1, under the one-element
iteration order a1, deletes the single matching record from the
one-record collection. -/
theorem c2_witness :
    List.Perm ["a1"] (stateA1Only50.APIListTimeStamp.map Prod.fst)
    ∧ removeEventA1.Event.Type_ = removeAPIFromGateway
    ∧ recordedTimeStamp removeEventA1.APIID stateA1Only50.APIListTimeStamp
        < removeEventA1.Event.TimeStamp
    ∧ (stateA1Only50.APIList.any fun a => strEqualFold removeEventA1.APIID a.APIID) = true
    ∧ (handleAPIEvents ["a1"] removeEventA1 stateA1Only50).APIList.length + 1
        = stateA1Only50.APIList.length :=
  ⟨by decide, rfl, by decide, by decide,
    (c2_fresh_remove_deletes_exactly_one removeEventA1 stateA1Only50 ["a1"]
      (by decide) rfl (by decide) (by decide) (by decide)).1⟩

/-- Claim C4: for every API event whose subtype is DEPLOY_API_IN_GATEWAY,
under every iteration order and regardless of timestamp, the API
collection gains exactly one new record at the end, built from the event
with its fields copied verbatim, and no existing record is removed;
handling the same deploy event twice accumulates duplicate records. -/
theorem c4_deploy_appends_record
    (ord ord2 : List String) (e : APIEvent) (s : CatalogState)
    (hty : e.Event.Type_ = deployAPIToGateway) :
    (handleAPIEvents ord e s).APIList = s.APIList ++ [apiFromEvent e]
    ∧ (apiFromEvent e).APIID = e.APIID
    ∧ (apiFromEvent e).Provider = e.APIProvider
    ∧ (apiFromEvent e).Name = e.APIName
    ∧ (apiFromEvent e).Version = e.APIVersion
    ∧ (apiFromEvent e).Context = e.APIContext
    ∧ (apiFromEvent e).APIType = e.APIType
    ∧ (apiFromEvent e).TenantDomain = e.Event.TenantDomain
    ∧ (apiFromEvent e).TimeStamp = e.Event.TimeStamp
    ∧ (handleAPIEvents ord2 e (handleAPIEvents ord e s)).APIList
        = s.APIList ++ [apiFromEvent e, apiFromEvent e] := by
  have hrem : strEqualFold removeAPIFromGateway e.Event.Type_ = false := by
    rw [hty]; decide
  have hdep : strEqualFold deployAPIToGateway e.Event.Type_ = true := by
    rw [hty]; decide
  have happ : ∀ (ord0 : List String) (s2 : CatalogState),
      (handleAPIEvents ord0 e s2).APIList = s2.APIList ++ [apiFromEvent e] := by
    intro ord0 s2; simp [handleAPIEvents, hrem, hdep]
  refine ⟨happ ord s, rfl, rfl, rfl, rfl, rfl, rfl, rfl, rfl, ?_⟩
  rw [happ ord2, happ ord s]
  simp

/-- Witness for C4: deploying a1 twice into the empty state yields two
duplicate records. -/
theorem c4_witness :
    deployEventA1.Event.Type_ = deployAPIToGateway
    ∧ (handleAPIEvents [] deployEventA1 initialState).APIList
        = initialState.APIList ++ [apiFromEvent deployEventA1]
    ∧ (handleAPIEvents [] deployEventA1
        (handleAPIEvents [] deployEventA1 initialState)).APIList
        = initialState.APIList ++ [apiFromEvent deployEventA1, apiFromEvent deployEventA1] :=
  ⟨rfl, (c4_deploy_appends_record [] [] deployEventA1 initialState rfl).1,
    (c4_deploy_appends_record [] [] deployEventA1 initialState rfl).2.2.2.2.2.2.2.2.2⟩

/-- Claim C3: the router agrees everywhere with the spec's ordered
first-match table (case-sensitive substring patterns API, APPLICATION,
SUBSCRIPTIONS, SCOPE, Policy as fallback), and in particular the string
APPLICATIONSCOPE routes to the Application handler. -/
theorem c3_router_first_match_precedence :
    (∀ t : String, routeEvent t = routeSpec t)
    ∧ routeEvent "APPLICATIONSCOPE" = Handler.application := by
  constructor
  · intro t
    cases h1 : strContains t apiEventType <;>
    cases h2 : strContains t applicationEventType <;>
    cases h3 : strContains t subscriptionEventType <;>
    cases h4 : strContains t scopeEvenType <;>
      simp [routeEvent, routeSpec, routeTable, List.find?, h1, h2, h3, h4]
  · decide

/-- Claim C6: a policy event whose policy-type discriminator matches
SUBSCRIPTIONS case-insensitively appends exactly one subscription-policy
record whose fields match the event exactly (and touches nothing else);
a policy event whose policy type matches API mutates no collection. -/
theorem c6_policy_handler_by_policy_type
    (eventType : String) (p : PolicyInfo) (sp : SubscriptionPolicyEvent)
    (s : CatalogState) :
    (strEqualFold subscriptionEventType p.PolicyType = true →
      handlePolicyEvents eventType p sp s
        = { s with SubPolicyList := s.SubPolicyList ++ [subscriptionPolicyFromEvent sp] }
      ∧ (subscriptionPolicyFromEvent sp).ID = sp.PolicyID
      ∧ (subscriptionPolicyFromEvent sp).Name = sp.PolicyName
      ∧ (subscriptionPolicyFromEvent sp).QuotaType = sp.QuotaType
      ∧ (subscriptionPolicyFromEvent sp).GraphQLMaxComplexity = sp.GraphQLMaxComplexity
      ∧ (subscriptionPolicyFromEvent sp).GraphQLMaxDepth = sp.GraphQLMaxDepth
      ∧ (subscriptionPolicyFromEvent sp).RateLimitCount = sp.RateLimitCount
      ∧ (subscriptionPolicyFromEvent sp).RateLimitTimeUnit = sp.RateLimitTimeUnit
      ∧ (subscriptionPolicyFromEvent sp).StopOnQuotaReach = sp.StopOnQuotaReach
      ∧ (subscriptionPolicyFromEvent sp).TenantDomain = sp.TenantDomain
      ∧ (subscriptionPolicyFromEvent sp).TimeStamp = sp.TimeStamp)
    ∧ (strEqualFold apiEventType p.PolicyType = true →
        handlePolicyEvents eventType p sp s = s) := by
  constructor
  · intro h
    have hfold : subscriptionEventType.toList.map foldChar
        = p.PolicyType.toList.map foldChar := by
      simpa [strEqualFold] using h
    have hapi : strEqualFold apiEventType p.PolicyType = false := by
      unfold strEqualFold
      rw [← hfold]
      decide
    have happl : strEqualFold applicationEventType p.PolicyType = false := by
      unfold strEqualFold
      rw [← hfold]
      decide
    refine ⟨?_, rfl, rfl, rfl, rfl, rfl, rfl, rfl, rfl, rfl, rfl⟩
    simp [handlePolicyEvents, hapi, happl, h]
  · intro h
    simp [handlePolicyEvents, h]

/-- Witness for C6: a subscriptions-typed policy event (lowercase
discriminator) with quota type Q and GraphQL max depth 5 appends exactly
its record to the empty state; an API-typed policy event leaves the
empty state untouched. -/
theorem c6_witness :
    strEqualFold subscriptionEventType subPolicyInfo.PolicyType = true
    ∧ handlePolicyEvents "POLICY_CREATE" subPolicyInfo samplePolicyEvent initialState
        = { initialState with
            SubPolicyList := initialState.SubPolicyList
              ++ [subscriptionPolicyFromEvent samplePolicyEvent] }
    ∧ strEqualFold apiEventType apiPolicyInfo.PolicyType = true
    ∧ handlePolicyEvents "POLICY_CREATE" apiPolicyInfo samplePolicyEvent initialState
        = initialState :=
  ⟨by decide,
    ((c6_policy_handler_by_policy_type "POLICY_CREATE" subPolicyInfo samplePolicyEvent
        initialState).1 (by decide)).1,
    by decide,
    (c6_policy_handler_by_policy_type "POLICY_CREATE" apiPolicyInfo samplePolicyEvent
        initialState).2 (by decide)⟩

/- Frame helper lemmas: which state fields each handler leaves alone. -/

/-- The API handler changes only APIList and APIListTimeStamp, under
every iteration order. -/
theorem handleAPIEvents_frame (ord : List String) (e : APIEvent) (s : CatalogState) :
    (handleAPIEvents ord e s).SubList = s.SubList
    ∧ (handleAPIEvents ord e s).AppKeyMappingList = s.AppKeyMappingList
    ∧ (handleAPIEvents ord e s).ScopeList = s.ScopeList
    ∧ (handleAPIEvents ord e s).AppPolicyList = s.AppPolicyList
    ∧ (handleAPIEvents ord e s).SubPolicyList = s.SubPolicyList
    ∧ (handleAPIEvents ord e s).AppList = s.AppList
    ∧ (handleAPIEvents ord e s).ApplicationListTimeStamp = s.ApplicationListTimeStamp := by
  unfold handleAPIEvents
  split_ifs <;> exact ⟨rfl, rfl, rfl, rfl, rfl, rfl, rfl⟩

/-- The Application handler changes only AppKeyMappingList or AppList. -/
theorem handleApplicationEvents_frame (et : String) (reg : ApplicationRegistrationEvent)
    (appEv : ApplicationEvent) (s : CatalogState) :
    (handleApplicationEvents et reg appEv s).SubList = s.SubList
    ∧ (handleApplicationEvents et reg appEv s).APIList = s.APIList
    ∧ (handleApplicationEvents et reg appEv s).ScopeList = s.ScopeList
    ∧ (handleApplicationEvents et reg appEv s).AppPolicyList = s.AppPolicyList
    ∧ (handleApplicationEvents et reg appEv s).SubPolicyList = s.SubPolicyList
    ∧ (handleApplicationEvents et reg appEv s).APIListTimeStamp = s.APIListTimeStamp := by
  unfold handleApplicationEvents
  split_ifs <;> exact ⟨rfl, rfl, rfl, rfl, rfl, rfl⟩

/-- The Policy handler changes only AppPolicyList or SubPolicyList. -/
theorem handlePolicyEvents_frame (et : String) (p : PolicyInfo)
    (sp : SubscriptionPolicyEvent) (s : CatalogState) :
    (handlePolicyEvents et p sp s).SubList = s.SubList
    ∧ (handlePolicyEvents et p sp s).AppKeyMappingList = s.AppKeyMappingList
    ∧ (handlePolicyEvents et p sp s).APIList = s.APIList
    ∧ (handlePolicyEvents et p sp s).ScopeList = s.ScopeList
    ∧ (handlePolicyEvents et p sp s).AppList = s.AppList
    ∧ (handlePolicyEvents et p sp s).APIListTimeStamp = s.APIListTimeStamp
    ∧ (handlePolicyEvents et p sp s).ApplicationListTimeStamp
        = s.ApplicationListTimeStamp := by
  unfold handlePolicyEvents
  split_ifs <;> exact ⟨rfl, rfl, rfl, rfl, rfl, rfl, rfl⟩

/-- Claim C7: handling any event routed to a category handler, under
every map-iteration order, leaves every other category's collections and
timestamp maps unchanged. -/
theorem c7_no_cross_kind_side_effects (ord : List String) (eventType : String)
    (v : DecodedViews) (s : CatalogState) :
    otherKindsUnchanged (routeEvent eventType) s (processEvent ord eventType v s) := by
  simp only [processEvent]
  cases routeEvent eventType with
  | api => exact handleAPIEvents_frame ord v.apiEvent s
  | application => exact handleApplicationEvents_frame eventType v.regEvent v.appEvent s
  | subscription => exact ⟨rfl, rfl, rfl, rfl, rfl, rfl, rfl, rfl⟩
  | scope => exact ⟨rfl, rfl, rfl, rfl, rfl, rfl, rfl, rfl⟩
  | policy => exact handlePolicyEvents_frame eventType v.policyInfo v.subPolicyEvent s

/-- Each append-only event grows its own category's collections by
exactly one record. -/
theorem applyAppSubScope_size (e : AppSubScopeEvent) (s : CatalogState) :
    appSubScopeSize (kindOfEvent e) (applyAppSubScope e s)
      = appSubScopeSize (kindOfEvent e) s + 1 := by
  cases e with
  | application et reg appEv =>
    show appSubScopeSize .application (handleApplicationEvents et reg appEv s)
      = appSubScopeSize .application s + 1
    unfold handleApplicationEvents
    split_ifs <;> simp [appSubScopeSize] <;> omega
  | subscription ev =>
    simp [applyAppSubScope, handleSubscriptionEvents, kindOfEvent, appSubScopeSize]
  | scope ev =>
    simp [applyAppSubScope, handleScopeEvents, kindOfEvent, appSubScopeSize]

/-- Each append-only event only ever extends the four append-only
collections at the end: existing records survive in place unmodified. -/
theorem applyAppSubScope_extends (e : AppSubScopeEvent) (s : CatalogState) :
    (∃ t, (applyAppSubScope e s).AppKeyMappingList = s.AppKeyMappingList ++ t)
    ∧ (∃ t, (applyAppSubScope e s).AppList = s.AppList ++ t)
    ∧ (∃ t, (applyAppSubScope e s).SubList = s.SubList ++ t)
    ∧ (∃ t, (applyAppSubScope e s).ScopeList = s.ScopeList ++ t) := by
  cases e with
  | application et reg appEv =>
    simp only [applyAppSubScope]
    unfold handleApplicationEvents
    split_ifs
    · exact ⟨⟨[appKeyMappingFromEvent reg], rfl⟩, ⟨[], by simp⟩, ⟨[], by simp⟩,
        ⟨[], by simp⟩⟩
    · exact ⟨⟨[], by simp⟩, ⟨[applicationFromEvent appEv], rfl⟩, ⟨[], by simp⟩,
        ⟨[], by simp⟩⟩
  | subscription ev =>
    refine ⟨⟨[], ?_⟩, ⟨[], ?_⟩, ⟨[subscriptionFromEvent ev], ?_⟩, ⟨[], ?_⟩⟩ <;>
      simp [applyAppSubScope, handleSubscriptionEvents]
  | scope ev =>
    refine ⟨⟨[], ?_⟩, ⟨[], ?_⟩, ⟨[], ?_⟩, ⟨[scopeFromEvent ev], ?_⟩⟩ <;>
      simp [applyAppSubScope, handleScopeEvents]

/-- Claim C5: the Application, Subscription and Scope handlers are
append-only.  Handling any sequence of N events of one of these kinds
grows that kind's collections by exactly N records, and every one of the
four append-only collections is only ever extended at the end (no
existing record is removed or modified). -/
theorem c5_app_sub_scope_append_only (k : AppSubScopeKind) :
    ∀ (es : List AppSubScopeEvent) (s : CatalogState),
    (∀ e ∈ es, kindOfEvent e = k) →
    appSubScopeSize k (applyAppSubScopeSeq es s) = appSubScopeSize k s + es.length
    ∧ (∃ t, (applyAppSubScopeSeq es s).AppKeyMappingList = s.AppKeyMappingList ++ t)
    ∧ (∃ t, (applyAppSubScopeSeq es s).AppList = s.AppList ++ t)
    ∧ (∃ t, (applyAppSubScopeSeq es s).SubList = s.SubList ++ t)
    ∧ (∃ t, (applyAppSubScopeSeq es s).ScopeList = s.ScopeList ++ t) := by
  intro es
  induction es with
  | nil =>
    intro s _
    exact ⟨by simp [applyAppSubScopeSeq], ⟨[], by simp [applyAppSubScopeSeq]⟩,
      ⟨[], by simp [applyAppSubScopeSeq]⟩, ⟨[], by simp [applyAppSubScopeSeq]⟩,
      ⟨[], by simp [applyAppSubScopeSeq]⟩⟩
  | cons e rest ih =>
    intro s hk
    have hke : kindOfEvent e = k := hk e (List.mem_cons_self e rest)
    have hkr : ∀ e' ∈ rest, kindOfEvent e' = k :=
      fun e' he' => hk e' (List.mem_cons_of_mem e he')
    have hstep := applyAppSubScope_size e s
    rw [hke] at hstep
    have hext := applyAppSubScope_extends e s
    have ihs := ih (applyAppSubScope e s) hkr
    have hseq : applyAppSubScopeSeq (e :: rest) s
        = applyAppSubScopeSeq rest (applyAppSubScope e s) := rfl
    refine ⟨?_, ?_, ?_, ?_, ?_⟩
    · rw [hseq, ihs.1, hstep]
      simp [Nat.add_assoc, Nat.add_comm 1 rest.length]
    · obtain ⟨t1, h1⟩ := hext.1
      obtain ⟨t2, h2⟩ := ihs.2.1
      exact ⟨t1 ++ t2, by rw [hseq, h2, h1, List.append_assoc]⟩
    · obtain ⟨t1, h1⟩ := hext.2.1
      obtain ⟨t2, h2⟩ := ihs.2.2.1
      exact ⟨t1 ++ t2, by rw [hseq, h2, h1, List.append_assoc]⟩
    · obtain ⟨t1, h1⟩ := hext.2.2.1
      obtain ⟨t2, h2⟩ := ihs.2.2.2.1
      exact ⟨t1 ++ t2, by rw [hseq, h2, h1, List.append_assoc]⟩
    · obtain ⟨t1, h1⟩ := hext.2.2.2
      obtain ⟨t2, h2⟩ := ihs.2.2.2.2
      exact ⟨t1 ++ t2, by rw [hseq, h2, h1, List.append_assoc]⟩

/-- Witness for C5: three subscription events with distinct subscription
ids grow the subscription collection of the empty state to exactly three
records. -/
theorem c5_witness :
    (∀ e ∈ threeSubEvents, kindOfEvent e = AppSubScopeKind.subscription)
    ∧ appSubScopeSize .subscription (applyAppSubScopeSeq threeSubEvents initialState)
        = appSubScopeSize .subscription initialState + threeSubEvents.length
    ∧ appSubScopeSize .subscription (applyAppSubScopeSeq threeSubEvents initialState) = 3 :=
  ⟨by decide,
    (c5_app_sub_scope_append_only .subscription threeSubEvents initialState (by decide)).1,
    by decide⟩

/-- In every branch of the API handler the new APIListTimeStamp is the
scan's resulting map. -/
theorem handleAPIEvents_timeStamp (ord : List String) (e : APIEvent) (s : CatalogState) :
    (handleAPIEvents ord e s).APIListTimeStamp
      = (apiTimeStampScan e.APIID e.Event.TimeStamp s.APIListTimeStamp ord).2 := by
  unfold handleAPIEvents
  split_ifs <;> rfl

/-- Counterexample to claim C8 as stated: the freshness scan does not
update the map entries of unrelated keys.  For the remove event for a1
(timestamp 100) against a map recording 50 for a1 and 7 for the unrelated
key b, the entry for b still holds 7 afterwards under either iteration
order, not the event's timestamp. -/
theorem c8_counterexample :
    strEqualFold removeEventA1.APIID "b" = false
    ∧ lookupTS "b" stateA1At50.APIListTimeStamp = 7
    ∧ lookupTS "b" (handleAPIEvents ["a1", "b"] removeEventA1 stateA1At50).APIListTimeStamp = 7
    ∧ lookupTS "b" (handleAPIEvents ["b", "a1"] removeEventA1 stateA1At50).APIListTimeStamp = 7
    ∧ lookupTS "b" (handleAPIEvents ["a1", "b"] removeEventA1 stateA1At50).APIListTimeStamp
        ≠ removeEventA1.Event.TimeStamp := by
  decide

/-- Claim C8 as amended: the freshness scan iterates the timestamp map;
each visited key that does not EqualFold-match the incoming API
identifier triggers a write of the incoming event's timestamp against the
incoming identifier itself (so the resulting map is exactly one update of
the incoming identifier's entry when any non-matching key exists, and the
map untouched otherwise; unrelated keys' recorded values are never
modified), while the timestamp captured for the removal decision is 0 (no
matching visit), the event's own timestamp (the incoming key's entry
overwritten before being visited), or the recorded value of some
EqualFold-matching entry — not necessarily that entry's old value in
every iteration order. -/
theorem c8_scan_writes_only_incoming_key (e : APIEvent) (s : CatalogState)
    (ord : List String) (hord : ord.Perm (s.APIListTimeStamp.map Prod.fst)) :
    (handleAPIEvents ord e s).APIListTimeStamp
      = (if s.APIListTimeStamp.any (fun p => ! strEqualFold e.APIID p.1)
         then mapUpdate e.APIID e.Event.TimeStamp s.APIListTimeStamp
         else s.APIListTimeStamp)
    ∧ ((apiTimeStampScan e.APIID e.Event.TimeStamp s.APIListTimeStamp ord).1 = 0
       ∨ (apiTimeStampScan e.APIID e.Event.TimeStamp s.APIListTimeStamp ord).1
           = e.Event.TimeStamp
       ∨ ∃ p ∈ s.APIListTimeStamp, strEqualFold e.APIID p.1 = true
           ∧ (apiTimeStampScan e.APIID e.Event.TimeStamp s.APIListTimeStamp ord).1
               = p.2) := by
  constructor
  · rw [handleAPIEvents_timeStamp, apiTimeStampScan_snd,
      any_nonmatch_perm e.APIID s.APIListTimeStamp ord hord]
  · exact scanLoop_fst_cases e.APIID e.Event.TimeStamp s.APIListTimeStamp ord 0
      s.APIListTimeStamp (Or.inl rfl) (Or.inl rfl)

/-- Witness for C8 as amended: for the remove event for a1 against the
map recording 50 for a1 and 7 for b, under the iteration order a1, b, the
resulting map is exactly the single write of a1 to 100. -/
theorem c8_witness :
    List.Perm ["a1", "b"] (stateA1At50.APIListTimeStamp.map Prod.fst)
    ∧ (handleAPIEvents ["a1", "b"] removeEventA1 stateA1At50).APIListTimeStamp
        = (if stateA1At50.APIListTimeStamp.any
              (fun p => ! strEqualFold removeEventA1.APIID p.1)
           then mapUpdate removeEventA1.APIID removeEventA1.Event.TimeStamp
                  stateA1At50.APIListTimeStamp
           else stateA1At50.APIListTimeStamp) :=
  ⟨by decide,
    (c8_scan_writes_only_incoming_key removeEventA1 stateA1At50 ["a1", "b"]
      (by decide)).1⟩

/-- Claim C9: a message whose inner event payload fails base64 decoding
is fatal: the loop stops at once with the catalog state unchanged, no
message acknowledged, and no normal completion signalled, regardless of
any deliveries queued behind it and of the map-iteration orders. -/
theorem c9_fatal_decode_stops_pipeline
    (d : Delivery) (rest : List Delivery) (ords : List (List String))
    (s : CatalogState) (msg : String)
    (h : d.payloadDecode = Except.error msg) :
    handleNotification (d :: rest) ords s = (s, 0, false) := by
  simp [handleNotification, h]

/-- Witness for C9: a corrupt delivery followed by a well-formed one
leaves the empty state untouched, acknowledges nothing and never reaches
the normal-completion signal. -/
theorem c9_witness :
    corruptDelivery.payloadDecode = Except.error "illegal base64 data"
    ∧ handleNotification [corruptDelivery, okDelivery] [] initialState
        = (initialState, 0, false) :=
  ⟨rfl, c9_fatal_decode_stops_pipeline corruptDelivery [okDelivery] [] initialState
      "illegal base64 data" rfl⟩

/-- Claim C10: under every iteration order of the timestamp map's keys,
the map is written only when it already holds a key that does not
EqualFold-match the incoming identifier; with an empty map the loop never
runs, so nothing is recorded, the captured timestamp defaults to 0, and a
remove event with any positive timestamp is treated as fresh (the removal
scan runs). -/
theorem c10_write_needs_unrelated_key (e : APIEvent) (s : CatalogState)
    (ord : List String) (hord : ord.Perm (s.APIListTimeStamp.map Prod.fst)) :
    ((∀ p ∈ s.APIListTimeStamp, strEqualFold e.APIID p.1 = true) →
       (handleAPIEvents ord e s).APIListTimeStamp = s.APIListTimeStamp)
    ∧ (s.APIListTimeStamp = [] →
        (handleAPIEvents ord e s).APIListTimeStamp = []
        ∧ (apiTimeStampScan e.APIID e.Event.TimeStamp s.APIListTimeStamp ord).1 = 0)
    ∧ (s.APIListTimeStamp = [] → e.Event.Type_ = removeAPIFromGateway →
        0 < e.Event.TimeStamp →
        (handleAPIEvents ord e s).APIList = removeFirstAPIMatch e.APIID s.APIList) := by
  refine ⟨?_, ?_, ?_⟩
  · intro h
    have hany : (ord.any fun k => ! strEqualFold e.APIID k) = false := by
      rw [any_nonmatch_perm e.APIID s.APIListTimeStamp ord hord]
      simp only [List.any_eq_false]
      intro p hp
      simp [h p hp]
    have h2 := apiTimeStampScan_snd e.APIID e.Event.TimeStamp s.APIListTimeStamp ord
    rw [hany] at h2
    simp at h2
    rw [handleAPIEvents_timeStamp]
    exact h2
  · intro h
    have hnil : ord = [] := by
      rw [h] at hord
      exact hord.eq_nil
    constructor
    · have h2 : (apiTimeStampScan e.APIID e.Event.TimeStamp s.APIListTimeStamp ord).2
          = [] := by rw [h, hnil]; rfl
      rw [handleAPIEvents_timeStamp]
      exact h2
    · rw [h, hnil]; rfl
  · intro h hty hts
    have hnil : ord = [] := by
      rw [h] at hord
      exact hord.eq_nil
    have hrem : strEqualFold removeAPIFromGateway e.Event.Type_ = true := by
      rw [hty]; decide
    have hlt : (apiTimeStampScan e.APIID e.Event.TimeStamp s.APIListTimeStamp ord).1
        < e.Event.TimeStamp := by
      rw [h, hnil]; exact hts
    simp [handleAPIEvents, hrem, hlt]

/-- Witness for C10: against the state holding the a1 record with an
empty timestamp map (forcing the empty iteration order), the remove event
for a1 (timestamp 100) writes nothing into the map, the captured
timestamp is 0, and the removal is honoured, emptying the collection. -/
theorem c10_witness :
    (handleAPIEvents [] removeEventA1 stateA1NoTS).APIListTimeStamp
        = stateA1NoTS.APIListTimeStamp
    ∧ (apiTimeStampScan removeEventA1.APIID removeEventA1.Event.TimeStamp
        stateA1NoTS.APIListTimeStamp []).1 = 0
    ∧ (handleAPIEvents [] removeEventA1 stateA1NoTS).APIList
        = removeFirstAPIMatch removeEventA1.APIID stateA1NoTS.APIList
    ∧ (handleAPIEvents [] removeEventA1 stateA1NoTS).APIList = [] :=
  ⟨(c10_write_needs_unrelated_key removeEventA1 stateA1NoTS [] (by decide)).1 (by decide),
    ((c10_write_needs_unrelated_key removeEventA1 stateA1NoTS [] (by decide)).2.1 rfl).2,
    (c10_write_needs_unrelated_key removeEventA1 stateA1NoTS [] (by decide)).2.2
      rfl rfl (by decide),
    by decide⟩